import Mathlib

/-!
Verification of the `meegsim-tutorial-2025` helper modules.

The repository ships a Python package `meegsim_tutorial` (files `utils.py`,
`ext.py`, `viz.py`) together with tutorial scripts that import helper
functions from it.  We give a shallow embedding of the relevant functions:

* `vertno_to_index` (`utils.py`, lines 35-51): looks up the position of a
  vertex number inside a hemisphere's `vertno` array of a source space,
  offsetting right-hemisphere positions by `src[0]["nuse"]`.
* `get_leadfield` (`ext.py`, lines 8-36): selects the lead-field columns of
  all vertices of a simulated source and averages them.
* the import lists of the tutorial scripts versus the names actually defined
  in the helper modules.

NumPy arrays are modelled as `List Int` / `List (List ℚ)` (a matrix is the
list of its rows, one row per channel); Python exceptions (`assert`,
`ValueError`, `IndexError`) are modelled by `Option`.
-/

namespace MeegsimTutorial

/-- One hemisphere of an MNE source space: its `vertno` array (the vertex
numbers in use) and its `nuse` field. -/
structure Hemisphere where
  vertno : List Int
  nuse : Nat
deriving Repr, DecidableEq

/-- A surface source space `src` with `src[0]` the left and `src[1]` the
right hemisphere. -/
structure SourceSpaces where
  lh : Hemisphere
  rh : Hemisphere
deriving Repr, DecidableEq

/-- Python indexing `src[hemi_idx]`; the code only ever evaluates it at
`hemi_idx ∈ {0, 1}`. -/
def SourceSpaces.get (src : SourceSpaces) : Nat → Hemisphere
  | 0 => src.lh
  | _ => src.rh

/-- Index of the first element of `arr` equal to `v`:
models `np.where(arr == int(v))[0]` followed by `.item(0)` on the
(nonempty) match list, and `none` models the empty match list. -/
def np_where_first (arr : List Int) (v : Int) : Option Nat :=
  match arr with
  | [] => none
  | a :: rest => if a = v then some 0 else (np_where_first rest v).map (· + 1)

/-- `utils.vertno_to_index(src, hemi, vertno)`.  `none` models the Python
exceptions: the failed `assert hemi in hemis` and the `ValueError` raised
when `vertno` is absent from the hemisphere's `vertno` array. -/
def vertno_to_index (src : SourceSpaces) (hemi : String) (vertno : Int) :
    Option Nat :=
  if hemi = "lh" ∨ hemi = "rh" then
    let hemi_idx : Nat := if hemi = "lh" then 0 else 1
    match np_where_first (src.get hemi_idx).vertno vertno with
    | none => none
    | some vert_idx =>
      if hemi = "lh" then some vert_idx
      else some ((src.get 0).nuse + vert_idx)
  else none

/-- The forward model as `get_leadfield` uses it: its source space
`fwd["src"]` and the lead-field matrix `fwd["sol"]["data"]`, one row per
channel. -/
structure Forward where
  src : SourceSpaces
  sol : List (List ℚ)

/-- A simulated point or patch source: its `vertices` attribute, a list of
`(hemi_idx, vertno)` pairs. -/
structure SimulatedSource where
  vertices : List (Nat × Int)

/-- The list `hemis = ["lh", "rh"]` from `ext.get_leadfield`. -/
def hemisList : List String := ["lh", "rh"]

/-- A Python list comprehension over fallible steps: the first exception
aborts the whole comprehension. -/
def mapOpt (f : α → Option β) : List α → Option (List β)
  | [] => some []
  | a :: rest =>
    match f a, mapOpt f rest with
    | some b, some bs => some (b :: bs)
    | _, _ => none

/-- `ext.get_leadfield(fwd, source)`.  `L[:, indices]` with a list of
indices is always two-dimensional (shape `(n_channels, k)`), so the
`leadfield.ndim > 1` branch is always taken and the mean over the selected
columns is always computed. -/
def get_leadfield (fwd : Forward) (source : SimulatedSource) :
    Option (List ℚ) :=
  let src := fwd.src
  let L := fwd.sol
  match mapOpt
      (fun p => (hemisList[p.1]?).bind (fun hemi => vertno_to_index src hemi p.2))
      source.vertices with
  | none => none
  | some indices =>
    match mapOpt (fun row => mapOpt (fun j => row[j]?) indices) L with
    | none => none
    | some sub =>
      some (sub.map (fun xs => xs.sum / (xs.length : ℚ)))

/-- `v` occurs in `l` at position `i` and at no earlier position. -/
def firstOccurrenceAt (l : List Int) (v : Int) (i : Nat) : Prop :=
  l[i]? = some v ∧ ∀ j, j < i → l[j]? ≠ some v

/-! ### Scripts and their imports from the helper modules -/

/-- Top-level names defined in `src/meegsim_tutorial/utils.py`. -/
def utils_module_names : List String :=
  ["print_emoji", "divider", "FILL_ME", "info_from_montage",
   "vertno_to_index", "prepare_head_model"]

/-- Top-level names defined in `src/meegsim_tutorial/viz.py`. -/
def viz_module_names : List String :=
  ["fsaverage_brain", "show_sources", "show_waveforms", "show_leadfield"]

/-- Top-level names defined in `src/meegsim_tutorial/ext.py`. -/
def ext_module_names : List String :=
  ["get_leadfield"]

/-- The names a helper module of the in-repo package defines. -/
def helper_module_names (m : String) : List String :=
  if m = "meegsim_tutorial.utils" then utils_module_names
  else if m = "meegsim_tutorial.viz" then viz_module_names
  else if m = "meegsim_tutorial.ext" then ext_module_names
  else []

/-- `from <module> import <name>` succeeds iff the module defines the name. -/
def import_resolves (imp : String × String) : Bool :=
  (helper_module_names imp.1).contains imp.2

/-- All helper-module imports of a script resolve. -/
def script_imports_resolve (imps : List (String × String)) : Bool :=
  imps.all import_resolves

/-- Helper-module imports of `00_test_install/test_install.py` (line 12). -/
def test_install_imports : List (String × String) :=
  [("meegsim_tutorial.utils", "print_emoji")]

/-- Helper-module imports of `01_demo/demo.py` (lines 35-36). -/
def demo_imports : List (String × String) :=
  [("meegsim_tutorial.utils", "divider"),
   ("meegsim_tutorial.utils", "info_from_montage"),
   ("meegsim_tutorial.utils", "FILL_ME"),
   ("meegsim_tutorial.viz", "show_sources"),
   ("meegsim_tutorial.viz", "show_waveforms"),
   ("meegsim_tutorial.viz", "show_leadfield")]

/-- Helper-module imports of
`02_hands_on/patch_cancellation/patch_cancellation.py` (lines 7-9). -/
def patch_cancellation_imports : List (String × String) :=
  [("meegsim_tutorial.ext", "get_leadfield"),
   ("meegsim_tutorial.utils", "FILL_ME"),
   ("meegsim_tutorial.utils", "prepare_head_model"),
   ("meegsim_tutorial.viz", "make_cropped_screenshot")]

/-- Helper-module imports of `_solutions/02_hands_on/patch_cancellation.py`
(lines 7-9). -/
def solutions_patch_cancellation_imports : List (String × String) :=
  [("meegsim_tutorial.ext", "get_leadfield"),
   ("meegsim_tutorial.utils", "prepare_head_model"),
   ("meegsim_tutorial.viz", "make_cropped_screenshot")]

/-- Helper-module imports of `_solutions/00_test_install/test_install.py`
(line 11). -/
def solutions_test_install_imports : List (String × String) :=
  [("meegsim_tutorial.utils", "print_emoji")]

/-- The helper-module import lists of every tutorial script in the
repository. -/
def all_script_imports : List (List (String × String)) :=
  [test_install_imports, demo_imports, patch_cancellation_imports,
   solutions_test_install_imports, solutions_patch_cancellation_imports]

/-! ### Helper lemmas -/

theorem np_where_first_spec {arr : List Int} {v : Int} :
    ∀ {i : Nat}, np_where_first arr v = some i → firstOccurrenceAt arr v i := by
  induction arr with
  | nil => intro i h; simp [np_where_first] at h
  | cons a rest ih =>
    intro i h
    rw [np_where_first] at h
    by_cases hav : a = v
    · rw [if_pos hav] at h
      cases h
      subst hav
      exact ⟨List.getElem?_cons_zero, fun j hj => absurd hj (Nat.not_lt_zero j)⟩
    · rw [if_neg hav] at h
      rcases Option.map_eq_some'.mp h with ⟨i0, hi0, hsum⟩
      subst hsum
      obtain ⟨hget, hmin⟩ := ih hi0
      refine ⟨by simpa using hget, ?_⟩
      intro j hj
      cases j with
      | zero => simpa using hav
      | succ j0 => simpa using hmin j0 (Nat.lt_of_succ_lt_succ hj)

theorem np_where_first_total {arr : List Int} {v : Int} (hv : v ∈ arr) :
    ∃ i, np_where_first arr v = some i := by
  induction arr with
  | nil => cases hv
  | cons a rest ih =>
    by_cases hav : a = v
    · exact ⟨0, by rw [np_where_first, if_pos hav]⟩
    · have hrest : v ∈ rest := by
        cases hv with
        | head => exact absurd rfl hav
        | tail _ h => exact h
      obtain ⟨i, hi⟩ := ih hrest
      exact ⟨i + 1, by rw [np_where_first, if_neg hav, hi]; rfl⟩

theorem np_where_first_lt {arr : List Int} {v : Int} {i : Nat}
    (h : np_where_first arr v = some i) : i < arr.length := by
  have := (np_where_first_spec h).1
  exact (List.getElem?_eq_some.mp this).1

theorem vertno_to_index_lh {src : SourceSpaces} {v : Int}
    (hv : v ∈ src.lh.vertno) :
    ∃ i, vertno_to_index src "lh" v = some i ∧ i < src.lh.vertno.length ∧
      firstOccurrenceAt src.lh.vertno v i := by
  obtain ⟨i, hi⟩ := np_where_first_total hv
  refine ⟨i, ?_, np_where_first_lt hi, np_where_first_spec hi⟩
  simp [vertno_to_index, SourceSpaces.get, hi]

theorem vertno_to_index_rh {src : SourceSpaces} {w : Int}
    (hw : w ∈ src.rh.vertno) :
    ∃ j, vertno_to_index src "rh" w = some (src.lh.nuse + j) ∧
      j < src.rh.vertno.length ∧ firstOccurrenceAt src.rh.vertno w j := by
  obtain ⟨j, hj⟩ := np_where_first_total hw
  refine ⟨j, ?_, np_where_first_lt hj, np_where_first_spec hj⟩
  simp [vertno_to_index, SourceSpaces.get, hj]

theorem mapOpt_eq_map {α β : Type} {f : α → Option β} {g : α → β} {l : List α}
    (h : ∀ a ∈ l, f a = some (g a)) :
    mapOpt f l = some (l.map g) := by
  induction l with
  | nil => rfl
  | cons a rest ih =>
    rw [mapOpt, h a (List.mem_cons_self a rest),
      ih (fun x hx => h x (List.mem_cons_of_mem a hx))]
    rfl

theorem mapOpt_forall {α β : Type} {f : α → Option β} {l : List α}
    {P : β → Prop} (h : ∀ a ∈ l, ∃ b, f a = some b ∧ P b) :
    ∃ bs, mapOpt f l = some bs ∧ bs.length = l.length ∧ ∀ b ∈ bs, P b := by
  induction l with
  | nil => exact ⟨[], rfl, rfl, fun b hb => absurd hb (List.not_mem_nil b)⟩
  | cons a rest ih =>
    obtain ⟨b, hb, hPb⟩ := h a (List.mem_cons_self a rest)
    obtain ⟨bs, hbs, hlen, hP⟩ := ih (fun x hx => h x (List.mem_cons_of_mem a hx))
    refine ⟨b :: bs, ?_, by simp [hlen], ?_⟩
    · rw [mapOpt, hb, hbs]
    · intro c hc
      rcases List.mem_cons.mp hc with h1 | h2
      · subst h1; exact hPb
      · exact hP c h2

/-! ### Claim theorems -/

/-- C2: for every source space and every vertno present in the chosen
hemisphere's `vertno` array, `vertno_to_index` is a pure first-occurrence
index lookup into the externally supplied arrays: with hemi `"lh"` it
returns the position of the first occurrence of vertno in
`src[0]["vertno"]`, and with hemi `"rh"` it returns `src[0]["nuse"]` plus
the position of the first occurrence of vertno in `src[1]["vertno"]`. -/
theorem vertno_to_index_is_first_occurrence_lookup
    (src : SourceSpaces) (v w : Int)
    (hv : v ∈ src.lh.vertno) (hw : w ∈ src.rh.vertno) :
    (∃ i, vertno_to_index src "lh" v = some i ∧
      firstOccurrenceAt src.lh.vertno v i) ∧
    (∃ j, vertno_to_index src "rh" w = some (src.lh.nuse + j) ∧
      firstOccurrenceAt src.rh.vertno w j) := by
  constructor
  · obtain ⟨i, h1, _, h3⟩ := vertno_to_index_lh hv
    exact ⟨i, h1, h3⟩
  · obtain ⟨j, h1, _, h3⟩ := vertno_to_index_rh hw
    exact ⟨j, h1, h3⟩

/-- Witness for C2: a concrete source space with a repeated left-hemisphere
vertex number and a concrete right-hemisphere vertex number. -/
theorem vertno_to_index_is_first_occurrence_lookup_witness :
    ((5 : Int) ∈ (SourceSpaces.mk ⟨[3, 5, 5], 3⟩ ⟨[7, 9], 2⟩).lh.vertno ∧
     (9 : Int) ∈ (SourceSpaces.mk ⟨[3, 5, 5], 3⟩ ⟨[7, 9], 2⟩).rh.vertno) ∧
    ((∃ i, vertno_to_index (SourceSpaces.mk ⟨[3, 5, 5], 3⟩ ⟨[7, 9], 2⟩) "lh" 5 =
        some i ∧ firstOccurrenceAt [3, 5, 5] 5 i) ∧
     (∃ j, vertno_to_index (SourceSpaces.mk ⟨[3, 5, 5], 3⟩ ⟨[7, 9], 2⟩) "rh" 9 =
        some (3 + j) ∧ firstOccurrenceAt [7, 9] 9 j)) :=
  ⟨⟨by decide, by decide⟩,
    vertno_to_index_is_first_occurrence_lookup _ 5 9 (by decide) (by decide)⟩

/-- C3: the claim that every tutorial script's imports from the in-repo
helper modules resolve fails on the code: both the hands-on script
`02_hands_on/patch_cancellation/patch_cancellation.py` and the solution
script `_solutions/02_hands_on/patch_cancellation.py` import
`make_cropped_screenshot` from `meegsim_tutorial.viz`, but `viz.py` defines
no such name, so both scripts fail at import time; the imports of the
remaining scripts all resolve. -/
theorem make_cropped_screenshot_import_does_not_resolve :
    import_resolves ("meegsim_tutorial.viz", "make_cropped_screenshot") = false ∧
    script_imports_resolve patch_cancellation_imports = false ∧
    script_imports_resolve solutions_patch_cancellation_imports = false ∧
    script_imports_resolve test_install_imports = true ∧
    script_imports_resolve demo_imports = true ∧
    script_imports_resolve solutions_test_install_imports = true ∧
    all_script_imports.all script_imports_resolve = false := by
  decide

/-- C1: for every forward model and every simulated source whose vertices
are a non-empty list of `(hemi_idx, vertno)` pairs each valid in
`fwd["src"]`, `get_leadfield` returns the vector with one entry per channel
(per row of `L = fwd["sol"]["data"]`) whose `c`-th entry is the arithmetic
mean of the `k` entries of row `c` at the column indices obtained by
applying `vertno_to_index` to each pair.  The well-formedness hypotheses
record that in an `mne.Forward` the columns of `L` are exactly the
`nuse`-counted vertices of the two hemispheres. -/
theorem get_leadfield_is_mean_of_selected_columns
    (fwd : Forward) (source : SimulatedSource)
    (hL : ∀ row ∈ fwd.sol, row.length = fwd.src.lh.nuse + fwd.src.rh.nuse)
    (hlh : fwd.src.lh.nuse = fwd.src.lh.vertno.length)
    (hrh : fwd.src.rh.nuse = fwd.src.rh.vertno.length)
    (hne : source.vertices ≠ [])
    (hvalid : ∀ p ∈ source.vertices,
      (p.1 = 0 ∧ p.2 ∈ fwd.src.lh.vertno) ∨
      (p.1 = 1 ∧ p.2 ∈ fwd.src.rh.vertno)) :
    ∃ (idxs : List Nat) (v : List ℚ),
      mapOpt (fun p => (hemisList[p.1]?).bind
        (fun hemi => vertno_to_index fwd.src hemi p.2)) source.vertices = some idxs ∧
      idxs.length = source.vertices.length ∧
      get_leadfield fwd source = some v ∧
      v.length = fwd.sol.length ∧
      ∀ c, c < v.length →
        v[c]? = some ((idxs.map (fun j => (fwd.sol.getD c []).getD j 0)).sum /
          (idxs.length : ℚ)) := by
  have hpt : ∀ p ∈ source.vertices, ∃ b,
      ((hemisList[p.1]?).bind (fun hemi => vertno_to_index fwd.src hemi p.2)) = some b ∧
      b < fwd.src.lh.nuse + fwd.src.rh.nuse := by
    intro p hp
    rcases hvalid p hp with ⟨h0, hmem⟩ | ⟨h1, hmem⟩
    · obtain ⟨i, hi, hilt, _⟩ := vertno_to_index_lh hmem
      refine ⟨i, ?_, by omega⟩
      rw [h0]
      simpa [hemisList] using hi
    · obtain ⟨j, hj, hjlt, _⟩ := vertno_to_index_rh hmem
      refine ⟨fwd.src.lh.nuse + j, ?_, by omega⟩
      rw [h1]
      simpa [hemisList] using hj
  obtain ⟨idxs, hidxs, hlen, hbound⟩ := mapOpt_forall hpt
  have hrowmap : ∀ row ∈ fwd.sol,
      mapOpt (fun j => row[j]?) idxs = some (idxs.map (fun j => row.getD j 0)) := by
    intro row hr
    apply mapOpt_eq_map
    intro j hjmem
    have hjlt : j < row.length := by
      rw [hL row hr]
      exact hbound j hjmem
    rw [List.getElem?_eq_getElem hjlt]
    congr 1
    rw [List.getD_eq_getElem?_getD, List.getElem?_eq_getElem hjlt]
    rfl
  have hsub := mapOpt_eq_map hrowmap
  refine ⟨idxs,
    (fwd.sol.map (fun row => idxs.map (fun j => row.getD j 0))).map
      (fun xs => xs.sum / (xs.length : ℚ)),
    hidxs, hlen, ?_, by simp, ?_⟩
  · simp only [get_leadfield, hidxs, hsub]
  · intro c hc
    have hclen : c < fwd.sol.length := by simpa using hc
    have hsolc : fwd.sol[c]? = some (fwd.sol.getD c []) := by
      rw [List.getElem?_eq_getElem hclen]
      congr 1
      rw [List.getD_eq_getElem?_getD, List.getElem?_eq_getElem hclen]
      rfl
    rw [List.getElem?_map, List.getElem?_map, hsolc]
    simp [List.length_map]

/-- A concrete two-channel forward model: left hemisphere with vertex
numbers `[3, 5]` (`nuse = 2`), right hemisphere with `[7]` (`nuse = 1`),
and a `2 x 3` lead-field matrix. -/
def exampleForward : Forward :=
  ⟨⟨⟨[3, 5], 2⟩, ⟨[7], 1⟩⟩, [[1, 2, 3], [4, 5, 6]]⟩

/-- A concrete simulated patch source with one vertex per hemisphere. -/
def exampleSource : SimulatedSource := ⟨[(0, 5), (1, 7)]⟩

/-- Witness for C1 at the concrete forward model and source. -/
theorem get_leadfield_is_mean_of_selected_columns_witness :
    ((∀ row ∈ exampleForward.sol,
        row.length = exampleForward.src.lh.nuse + exampleForward.src.rh.nuse) ∧
     exampleForward.src.lh.nuse = exampleForward.src.lh.vertno.length ∧
     exampleForward.src.rh.nuse = exampleForward.src.rh.vertno.length ∧
     exampleSource.vertices ≠ [] ∧
     (∀ p ∈ exampleSource.vertices,
        (p.1 = 0 ∧ p.2 ∈ exampleForward.src.lh.vertno) ∨
        (p.1 = 1 ∧ p.2 ∈ exampleForward.src.rh.vertno))) ∧
    (∃ (idxs : List Nat) (v : List ℚ),
      mapOpt (fun p => (hemisList[p.1]?).bind
        (fun hemi => vertno_to_index exampleForward.src hemi p.2))
        exampleSource.vertices = some idxs ∧
      idxs.length = exampleSource.vertices.length ∧
      get_leadfield exampleForward exampleSource = some v ∧
      v.length = exampleForward.sol.length ∧
      ∀ c, c < v.length →
        v[c]? = some ((idxs.map
          (fun j => (exampleForward.sol.getD c []).getD j 0)).sum /
          (idxs.length : ℚ))) ∧
    get_leadfield exampleForward exampleSource = some [5 / 2, 11 / 2] :=
  ⟨⟨by decide, by decide, by decide, by decide, by decide⟩,
    get_leadfield_is_mean_of_selected_columns exampleForward exampleSource
      (by decide) (by decide) (by decide) (by decide) (by decide),
    by
      simp [get_leadfield, mapOpt, hemisList, vertno_to_index,
        np_where_first, SourceSpaces.get, exampleForward, exampleSource]
      norm_num⟩

end MeegsimTutorial
